import Mathlib

/-!
Verification of the metrics/badges/leaderboard core of the
gitlab-reviewer-roulette service, as a shallow embedding in Lean.

Modelling conventions, used throughout:
* Instants (Go `time.Time`) are modelled as `Int`, seconds since the Unix
  epoch.  `a.Sub(b).Seconds()` is then exact integer subtraction; all the
  verified code only compares or averages whole-second quantities.
  Go `t1.After(t2)` is strict `>`, `t1.Before(t2)` is strict `<`;
  SQL `BETWEEN a AND b` is the inclusive `a ≤ x ∧ x ≤ b`.
* `float64` values are modelled as exact rationals (`ℚ`).  Every float
  computation in the verified code is a sum, product or division of
  decimals, so the rational model is the intended real-number semantics.
  `int(f)` (Go float-to-int conversion) truncates toward zero.
* Go `uint` identifiers are `Nat`; Go `int` fields are `Int`;
  nullable columns / pointers are `Option`.
* SQL tables with a unique key are modelled as functions from the key
  (surrogate `id` columns managed by the ORM are omitted); tables without
  a relevant unique key are lists of rows.
* Go `sort.Slice(x, less)` guarantees only that the result is a permutation
  ordered by `less`; we model it by the deterministic `List.insertionSort`
  with the reflexive closure of `less`, a refinement of that contract.
  Iteration over a Go `map` is modelled in first-insertion order.
-/

namespace RR

/-- Go float-to-int conversion on our rational model of float64:
truncation toward zero (`Int.div` of numerator by denominator). -/
def goInt (q : ℚ) : Int := Int.tdiv q.num (q.den : Int)

/-! ## Domain model (internal/models) -/

/-- internal/models: MRReview (mr_reviews table). -/
structure MRReview where
  id : Nat
  gitlabMRIID : Int
  gitlabProjectID : Int
  team : String
  rouletteTriggeredAt : Option Int
  firstReviewAt : Option Int
  approvedAt : Option Int
  mergedAt : Option Int
  closedAt : Option Int
  status : String
deriving DecidableEq, Repr

/-- internal/models: ReviewerAssignment (reviewer_assignments table). -/
structure ReviewerAssignment where
  mrReviewID : Nat
  userID : Nat
  role : String
  assignedAt : Int
  startedReviewAt : Option Int
  firstCommentAt : Option Int
  approvedAt : Option Int
  commentCount : Int
  commentLength : Int
deriving DecidableEq, Repr

/-- internal/models: ReviewMetrics (review_metrics table).  The surrogate
`ID`/`CreatedAt` columns are omitted; the composite unique key is
(date, team, user_id, project_id). -/
structure ReviewMetrics where
  date : Int
  team : String
  userID : Option Nat
  projectID : Option Int
  totalReviews : Int
  completedReviews : Int
  avgTTFR : Option Int
  avgTimeToApproval : Option Int
  avgCommentCount : Option ℚ
  avgCommentLength : Option ℚ
  engagementScore : Option ℚ
deriving DecidableEq, Repr

/-- internal/models: OOOStatus (ooo_status table). -/
structure OOOStatus where
  userID : Nat
  startDate : Int
  endDate : Int
deriving DecidableEq, Repr

/-! ## internal/service/metrics/calculator.go -/

/-- CalculateTTFR: seconds from `triggeredAt` to `firstReviewAt`;
nil when the review has not started; negative differences (clock skew)
are clamped to 0. -/
def calculateTTFR (triggeredAt : Int) (firstReviewAt : Option Int) : Option Int :=
  match firstReviewAt with
  | none => none
  | some t =>
    let seconds := t - triggeredAt
    some (if seconds < 0 then 0 else seconds)

/-- CalculateTimeToApproval: same shape as CalculateTTFR with `approvedAt`. -/
def calculateTimeToApproval (triggeredAt : Int) (approvedAt : Option Int) : Option Int :=
  match approvedAt with
  | none => none
  | some t =>
    let seconds := t - triggeredAt
    some (if seconds < 0 then 0 else seconds)

/-- CalculateEngagementScore: comment_count * 10 + comment_total_length / 100. -/
def calculateEngagementScore (a : ReviewerAssignment) : ℚ :=
  (a.commentCount : ℚ) * 10 + (a.commentLength : ℚ) / 100

/-! ## internal/models/user.go : OOOStatus.IsActive, and
     the OOO repository query IsUserOOO -/

/-- OOOStatus.IsActive: `now.After(o.StartDate) && now.Before(o.EndDate)` —
note both comparisons are strict. -/
def oooIsActive (o : OOOStatus) (now : Int) : Bool :=
  decide (o.startDate < now) && decide (now < o.endDate)

/-- OOORepository.IsUserOOO: `count(* where user_id = ? and start_date <= now
and end_date >= now) > 0` — both comparisons inclusive. -/
def isUserOOO (store : List OOOStatus) (userID : Nat) (now : Int) : Bool :=
  decide (0 < (store.filter (fun o =>
    decide (o.userID = userID) && decide (o.startDate ≤ now) && decide (now ≤ o.endDate))).length)

/-! ## calculatePeriodRange : identical private helpers in
     internal/service/badges/evaluator.go and the leaderboard service -/

/-- 2000-01-01 00:00:00 UTC in seconds since the Unix epoch
(`time.Date(2000, 1, 1, 0, 0, 0, 0, time.UTC)`). -/
def epoch2000 : Int := 946684800

namespace Badges

/-- calculatePeriodRange (badges evaluator copy): rolling window ending
`now`; `all_time`, the empty string and every unrecognized period all start
at 2000-01-01 UTC. -/
def calculatePeriodRange (period : String) (now : Int) : Int × Int :=
  if period = "day" then (now - 24 * 3600, now)
  else if period = "week" then (now - 7 * 24 * 3600, now)
  else if period = "month" then (now - 30 * 24 * 3600, now)
  else if period = "year" then (now - 365 * 24 * 3600, now)
  else if period = "all_time" ∨ period = "" then (epoch2000, now)
  else (epoch2000, now)

end Badges

namespace Leaderboard

/-- calculatePeriodRange (leaderboard service copy, textually the same Go
code as the badges copy). -/
def calculatePeriodRange (period : String) (now : Int) : Int × Int :=
  if period = "day" then (now - 24 * 3600, now)
  else if period = "week" then (now - 7 * 24 * 3600, now)
  else if period = "month" then (now - 30 * 24 * 3600, now)
  else if period = "year" then (now - 365 * 24 * 3600, now)
  else if period = "all_time" ∨ period = "" then (epoch2000, now)
  else (epoch2000, now)

end Leaderboard

/-! ## Review repository reads used by the aggregator (internal/repository) -/

/-- The durable store of reviews and their assignments, as seen by the
aggregator (it only reads these two tables). -/
structure ReviewStore where
  reviews : List MRReview
  assignments : List ReviewerAssignment

/-- ReviewRepository.GetAssignmentsByMRReviewID. -/
def getAssignmentsByMRReviewID (store : ReviewStore) (mrReviewID : Nat) :
    List ReviewerAssignment :=
  store.assignments.filter (fun a => decide (a.mrReviewID = mrReviewID))

/-- SQL `col BETWEEN a AND b` on a nullable timestamp column: NULL is falsy. -/
def optBetween (o : Option Int) (a b : Int) : Bool :=
  match o with
  | some t => decide (a ≤ t) && decide (t ≤ b)
  | none => false

/-- ReviewRepository.GetCompletedReviewsByDateRange: rows whose merged_at or
closed_at lies in the inclusive range and whose status is merged or closed. -/
def getCompletedReviewsByDateRange (store : ReviewStore) (startDate endDate : Int) :
    List MRReview :=
  store.reviews.filter (fun r =>
    (optBetween r.mergedAt startDate endDate || optBetween r.closedAt startDate endDate)
    && (decide (r.status = "merged") || decide (r.status = "closed")))

/-! ## Metrics table and MetricsRepository.CreateOrUpdate
(internal/repository/metrics_repository.go)

The review_metrics table carries a composite unique key
(date, team, user_id, project_id) (migration 20251028195127), and
CreateOrUpdate looks a row up by exactly that key and replaces it, or
inserts when absent.  The table is therefore a function from the key. -/

/-- The (date, team, user_id, project_id) composite key of review_metrics. -/
abbrev MetricsKey := Int × String × Option Nat × Option Int

/-- The key of a ReviewMetrics row. -/
def rmKey (m : ReviewMetrics) : MetricsKey := (m.date, m.team, m.userID, m.projectID)

/-- The review_metrics table, one row at most per key. -/
abbrev MetricsStore := MetricsKey → Option ReviewMetrics

/-- The empty review_metrics table. -/
def emptyMetricsStore : MetricsStore := fun _ => none

/-- MetricsRepository.CreateOrUpdate: replace the row with the same
(date, team, user_id, project_id) key, or insert it. -/
def createOrUpdate (m : ReviewMetrics) (s : MetricsStore) : MetricsStore :=
  fun k => if k = rmKey m then some m else s k

/-! ## internal/service/aggregator/aggregator.go -/

namespace Aggregator

/-- The accumulator of aggregateTeamMetrics' loop over a team's reviews. -/
structure TeamAcc where
  totalTTFR : Int
  ttfrCount : Nat
  totalTimeToApproval : Int
  approvalCount : Nat
  totalCommentCount : Int
  totalCommentLength : Int
  completedCount : Nat

/-- One iteration of aggregateTeamMetrics' loop: count merged reviews,
accumulate non-negative TTFR and time-to-approval differences, and add the
comment counters of the review's assignments. -/
def teamStep (store : ReviewStore) (acc : TeamAcc) (r : MRReview) : TeamAcc :=
  let acc :=
    if r.status = "merged" then { acc with completedCount := acc.completedCount + 1 } else acc
  let acc :=
    match r.firstReviewAt, r.rouletteTriggeredAt with
    | some f, some tr =>
      let ttfr := f - tr
      if 0 ≤ ttfr then
        { acc with totalTTFR := acc.totalTTFR + ttfr, ttfrCount := acc.ttfrCount + 1 }
      else acc
    | _, _ => acc
  let acc :=
    match r.approvedAt, r.rouletteTriggeredAt with
    | some ap, some tr =>
      let t := ap - tr
      if 0 ≤ t then
        { acc with totalTimeToApproval := acc.totalTimeToApproval + t,
                   approvalCount := acc.approvalCount + 1 }
      else acc
    | _, _ => acc
  (getAssignmentsByMRReviewID store r.id).foldl
    (fun a asg =>
      { a with totalCommentCount := a.totalCommentCount + asg.commentCount,
               totalCommentLength := a.totalCommentLength + asg.commentLength })
    acc

/-- aggregateTeamMetrics: the team-level ReviewMetrics row for one team's
reviews of the day (user and project NULL). -/
def aggregateTeamMetrics (store : ReviewStore) (date : Int) (team : String)
    (reviews : List MRReview) : ReviewMetrics :=
  let acc := reviews.foldl (teamStep store) ⟨0, 0, 0, 0, 0, 0, 0⟩
  let avgTTFR : ℚ := if 0 < acc.ttfrCount then (acc.totalTTFR : ℚ) / (acc.ttfrCount : ℚ) else 0
  let avgTimeToApproval : ℚ :=
    if 0 < acc.approvalCount then (acc.totalTimeToApproval : ℚ) / (acc.approvalCount : ℚ) else 0
  let avgCommentCount : ℚ :=
    if 0 < reviews.length then (acc.totalCommentCount : ℚ) / (reviews.length : ℚ) else 0
  let avgCommentLength : ℚ :=
    if 0 < reviews.length then (acc.totalCommentLength : ℚ) / (reviews.length : ℚ) else 0
  let engagementScore : ℚ :=
    if 0 < reviews.length then avgCommentCount * 10 + avgCommentLength / 100 else 0
  { date := date
    team := team
    userID := none
    projectID := none
    totalReviews := (reviews.length : Int)
    completedReviews := (acc.completedCount : Int)
    avgTTFR := if 0 < acc.ttfrCount then some (goInt (avgTTFR / 60)) else none
    avgTimeToApproval :=
      if 0 < acc.approvalCount then some (goInt (avgTimeToApproval / 60)) else none
    avgCommentCount := some avgCommentCount
    avgCommentLength := some avgCommentLength
    engagementScore := some engagementScore }

/-- The user-level ReviewMetrics row aggregateUserMetrics writes for one
assignment of a completed review. -/
def userRow (date : Int) (review : MRReview) (a : ReviewerAssignment) : ReviewMetrics :=
  let avgTTFR : Int :=
    match a.firstCommentAt with
    | some f => if 0 < a.assignedAt then (let t := f - a.assignedAt; if 0 ≤ t then t else 0) else 0
    | none => 0
  let avgTimeToApproval : Int :=
    match a.approvedAt with
    | some ap => if 0 < a.assignedAt then (let t := ap - a.assignedAt; if 0 ≤ t then t else 0) else 0
    | none => 0
  { date := date
    team := review.team
    userID := some a.userID
    projectID := some review.gitlabProjectID
    totalReviews := 1
    completedReviews := if review.status = "merged" then 1 else 0
    avgTTFR := if 0 < avgTTFR then some (goInt ((avgTTFR : ℚ) / 60)) else none
    avgTimeToApproval :=
      if 0 < avgTimeToApproval then some (goInt ((avgTimeToApproval : ℚ) / 60)) else none
    avgCommentCount := some (a.commentCount : ℚ)
    avgCommentLength := some (a.commentLength : ℚ)
    engagementScore := some (calculateEngagementScore a) }

/-- aggregateUserMetrics: the user-level rows for one review, one per
assignment, in assignment order. -/
def aggregateUserMetrics (store : ReviewStore) (date : Int) (review : MRReview) :
    List ReviewMetrics :=
  (getAssignmentsByMRReviewID store review.id).map (userRow date review)

/-- The distinct team names of a day's reviews, in first-appearance order
(the deterministic model of Go's per-team map, grouping preserves the
original order inside each team). -/
def teamsOf (reviews : List MRReview) : List String :=
  reviews.foldl (fun acc r => if r.team ∈ acc then acc else acc ++ [r.team]) []

/-- Every ReviewMetrics row one AggregateDaily run writes, in write order:
team-level rows first, then the user-level rows review by review. -/
def dailyRows (store : ReviewStore) (startOfDay : Int) : List ReviewMetrics :=
  let endOfDay := startOfDay + 24 * 3600
  let reviews := getCompletedReviewsByDateRange store startOfDay endOfDay
  ((teamsOf reviews).map (fun t =>
      aggregateTeamMetrics store startOfDay t
        (reviews.filter (fun r => decide (r.team = t)))))
  ++ reviews.flatMap (aggregateUserMetrics store startOfDay)

/-- AggregateDaily for the day starting at `startOfDay` (the Go code first
normalizes its argument to local midnight; `startOfDay` is that normalized
instant): load the day's completed reviews, compute the team- and
user-level rows, and upsert each through CreateOrUpdate. -/
def aggregateDaily (store : ReviewStore) (startOfDay : Int) (ms : MetricsStore) :
    MetricsStore :=
  (dailyRows store startOfDay).foldl (fun s m => createOrUpdate m s) ms

end Aggregator

/-! ## Idempotence of the daily aggregation (claim C2) -/

/-- The last row of `rows` whose (date, team, user, project) key is `k`:
the row a fold of CreateOrUpdate leaves at `k`. -/
def lastWithKey (rows : List ReviewMetrics) (k : MetricsKey) : Option ReviewMetrics :=
  rows.reverse.find? (fun m => decide (rmKey m = k))

lemma foldl_createOrUpdate_apply (rows : List ReviewMetrics) (ms : MetricsStore)
    (k : MetricsKey) :
    (rows.foldl (fun s m => createOrUpdate m s) ms) k =
      match lastWithKey rows k with
      | some m => some m
      | none => ms k := by
  induction rows generalizing ms with
  | nil => simp [lastWithKey]
  | cons r rs ih =>
    simp only [List.foldl_cons]
    rw [ih]
    simp only [lastWithKey, List.reverse_cons, List.find?_append]
    cases h : rs.reverse.find? (fun m => decide (rmKey m = k)) with
    | some m => simp
    | none =>
      simp only [Option.none_orElse, List.find?_cons, List.find?_nil, createOrUpdate]
      by_cases hk : rmKey r = k
      · simp [hk]
      · have : ¬ (k = rmKey r) := fun h2 => hk h2.symm
        simp [hk, this]

/-- C2: for every day and every fixed store of reviews and assignments,
running AggregateDaily twice writes exactly the same review_metrics table
as running it once: every row is upserted on its (date, team, user,
project) key, and the second run overwrites each row with the identically
recomputed value, creating no new rows. -/
theorem aggregateDaily_idempotent (store : ReviewStore) (startOfDay : Int)
    (ms : MetricsStore) :
    Aggregator.aggregateDaily store startOfDay
        (Aggregator.aggregateDaily store startOfDay ms) =
      Aggregator.aggregateDaily store startOfDay ms := by
  funext k
  unfold Aggregator.aggregateDaily
  rw [foldl_createOrUpdate_apply, foldl_createOrUpdate_apply]
  cases h : lastWithKey (Aggregator.dailyRows store startOfDay) k with
  | some m => rfl
  | none => rfl

/-! ## The concrete boundary scenario of claim C1: one merged review on
2025-01-15 with two assignments (comment counts 5 and 3, lengths 500
and 300). -/

/-- 2025-01-15 00:00:00 UTC. -/
def c1Day : Int := 1736899200

/-- The single completed (merged) review of the day. -/
def c1Review : MRReview :=
  { id := 1, gitlabMRIID := 1, gitlabProjectID := 100, team := "frontend",
    rouletteTriggeredAt := none, firstReviewAt := none, approvedAt := none,
    mergedAt := some (c1Day + 3600), closedAt := none, status := "merged" }

/-- First assignment: 5 comments, 500 characters. -/
def c1Asg10 : ReviewerAssignment :=
  { mrReviewID := 1, userID := 10, role := "team_member", assignedAt := c1Day + 100,
    startedReviewAt := none, firstCommentAt := none, approvedAt := none,
    commentCount := 5, commentLength := 500 }

/-- Second assignment: 3 comments, 300 characters. -/
def c1Asg11 : ReviewerAssignment :=
  { mrReviewID := 1, userID := 11, role := "external", assignedAt := c1Day + 100,
    startedReviewAt := none, firstCommentAt := none, approvedAt := none,
    commentCount := 3, commentLength := 300 }

/-- The C1 store: exactly one completed review with its two assignments. -/
def c1Store : ReviewStore := ⟨[c1Review], [c1Asg10, c1Asg11]⟩

/-- Key of the team-level row the aggregator writes for the scenario. -/
def c1TeamKey : MetricsKey := (c1Day, "frontend", none, none)

/-- Key of the user-level row for assignee 10. -/
def c1User10Key : MetricsKey := (c1Day, "frontend", some 10, some 100)

/-- Key of the user-level row for assignee 11. -/
def c1User11Key : MetricsKey := (c1Day, "frontend", some 11, some 100)

/-- The team-level row the code actually produces: the comment totals are
divided by the number of reviews (1), not the number of assignments (2),
so the averages are 8.0 and 800.0. -/
def c1TeamRow : ReviewMetrics :=
  { date := c1Day, team := "frontend", userID := none, projectID := none,
    totalReviews := 1, completedReviews := 1, avgTTFR := none,
    avgTimeToApproval := none, avgCommentCount := some 8,
    avgCommentLength := some 800, engagementScore := some 88 }

/-- The user-level row for assignee 10. -/
def c1User10Row : ReviewMetrics :=
  { date := c1Day, team := "frontend", userID := some 10, projectID := some 100,
    totalReviews := 1, completedReviews := 1, avgTTFR := none,
    avgTimeToApproval := none, avgCommentCount := some 5,
    avgCommentLength := some 500, engagementScore := some 55 }

/-- The user-level row for assignee 11. -/
def c1User11Row : ReviewMetrics :=
  { date := c1Day, team := "frontend", userID := some 11, projectID := some 100,
    totalReviews := 1, completedReviews := 1, avgTTFR := none,
    avgTimeToApproval := none, avgCommentCount := some 3,
    avgCommentLength := some 300, engagementScore := some 33 }

lemma c1_dailyRows :
    Aggregator.dailyRows c1Store c1Day = [c1TeamRow, c1User10Row, c1User11Row] := by
  norm_num [Aggregator.dailyRows, Aggregator.teamsOf, Aggregator.aggregateTeamMetrics,
    Aggregator.aggregateUserMetrics, Aggregator.teamStep, Aggregator.userRow,
    getCompletedReviewsByDateRange, getAssignmentsByMRReviewID, optBetween,
    calculateEngagementScore, c1Store, c1Review, c1Asg10, c1Asg11, c1Day,
    c1TeamRow, c1User10Row, c1User11Row, List.filter, List.flatMap]

/-- C1 counterexample: on the claimed scenario the aggregator's single
team-level row carries avg_comment_count = 8.0 and avg_comment_length =
800.0 (the totals divided by the 1 review of the group), not the claimed
4.0 and 400.0. -/
theorem c1_counterexample :
    (Aggregator.aggregateDaily c1Store c1Day emptyMetricsStore) c1TeamKey
        = some c1TeamRow
    ∧ c1TeamRow.avgCommentCount = some 8
    ∧ c1TeamRow.avgCommentLength = some 800
    ∧ some (8 : ℚ) ≠ some (4 : ℚ)
    ∧ some (800 : ℚ) ≠ some (400 : ℚ) := by
  refine ⟨?_, rfl, rfl, by decide, by decide⟩
  rw [Aggregator.aggregateDaily, c1_dailyRows]
  simp [createOrUpdate, emptyMetricsStore, rmKey, c1TeamRow, c1User10Row,
    c1User11Row, c1TeamKey, c1User10Key, c1User11Key, c1Day]

/-- C1 (amended): running the daily aggregator for 2025-01-15 over a store
with exactly one completed MRReview for that date carrying two assignments
(comment counts 5 and 3, lengths 500 and 300) writes exactly one
team-level row — with avg_comment_count = 8.0, avg_comment_length = 800.0
and completed_reviews = 1 — and exactly two user-level rows, one per
assignee; no other row exists. -/
theorem c1_amended :
    (∀ k, (Aggregator.aggregateDaily c1Store c1Day emptyMetricsStore) k =
      if k = c1TeamKey then some c1TeamRow
      else if k = c1User10Key then some c1User10Row
      else if k = c1User11Key then some c1User11Row
      else none)
    ∧ c1TeamRow.avgCommentCount = some 8
    ∧ c1TeamRow.avgCommentLength = some 800
    ∧ c1TeamRow.completedReviews = 1
    ∧ c1User10Row.userID = some 10 ∧ c1User11Row.userID = some 11 := by
  refine ⟨?_, rfl, rfl, rfl, rfl, rfl⟩
  intro k
  rw [Aggregator.aggregateDaily, c1_dailyRows]
  by_cases h1 : k = c1TeamKey
  · subst h1
    simp [createOrUpdate, rmKey, c1TeamRow, c1User10Row, c1User11Row,
      c1TeamKey, c1Day]
  · by_cases h2 : k = c1User10Key
    · subst h2
      simp [createOrUpdate, rmKey, c1TeamRow, c1User10Row, c1User11Row,
        c1User10Key, c1TeamKey, c1Day]
    · by_cases h3 : k = c1User11Key
      · subst h3
        simp [createOrUpdate, rmKey, c1TeamRow, c1User10Row, c1User11Row,
          c1User11Key, c1User10Key, c1TeamKey, c1Day]
      · simp only [List.foldl_cons, List.foldl_nil, createOrUpdate]
        have k1 : k ≠ rmKey c1TeamRow := by
          simpa [rmKey, c1TeamRow, c1TeamKey, c1Day] using h1
        have k2 : k ≠ rmKey c1User10Row := by
          simpa [rmKey, c1User10Row, c1User10Key, c1Day] using h2
        have k3 : k ≠ rmKey c1User11Row := by
          simpa [rmKey, c1User11Row, c1User11Key, c1Day] using h3
        simp [k1, k2, k3, h1, h2, h3, emptyMetricsStore]

/-- C8: CalculateTTFR and CalculateTimeToApproval return nil exactly when
the end timestamp is missing, otherwise a non-negative number of seconds,
clamping a negative difference (clock skew) to zero; they are pure and
never modify the stored timestamps. -/
theorem calculator_nonneg_and_nil (trig t : Int) (fr : Option Int) :
    calculateTTFR trig none = none
    ∧ calculateTimeToApproval trig none = none
    ∧ calculateTTFR trig (some t) = some (max (t - trig) 0)
    ∧ calculateTimeToApproval trig (some t) = some (max (t - trig) 0)
    ∧ 0 ≤ (calculateTTFR trig fr).getD 0
    ∧ 0 ≤ (calculateTimeToApproval trig fr).getD 0
    ∧ (calculateTTFR trig fr).isSome = fr.isSome
    ∧ (calculateTimeToApproval trig fr).isSome = fr.isSome := by
  have hmax : ∀ s : Int, (if s < 0 then 0 else s) = max s 0 := by
    intro s; split_ifs with h <;> omega
  refine ⟨rfl, rfl, ?_, ?_, ?_, ?_, ?_, ?_⟩
  · simp only [calculateTTFR, hmax]
  · simp only [calculateTimeToApproval, hmax]
  · cases fr <;> simp [calculateTTFR, hmax] <;> omega
  · cases fr <;> simp [calculateTimeToApproval, hmax] <;> omega
  · cases fr <;> simp [calculateTTFR]
  · cases fr <;> simp [calculateTimeToApproval]

/-- C10: calculatePeriodRange — in both its badge-evaluator and
leaderboard-service copies — is total: day, week, month and year map to
rolling 24-hour, 7-day, 30-day and 365-day windows ending now, and every
other string (all_time, the empty string, and any unrecognized period)
maps to the window starting 2000-01-01 UTC and ending now. -/
theorem calculatePeriodRange_total (p : String) (now : Int) :
    Badges.calculatePeriodRange p now = Leaderboard.calculatePeriodRange p now
    ∧ Leaderboard.calculatePeriodRange p now =
        (if p = "day" then now - 86400
         else if p = "week" then now - 604800
         else if p = "month" then now - 2592000
         else if p = "year" then now - 31536000
         else epoch2000, now) := by
  refine ⟨rfl, ?_⟩
  unfold Leaderboard.calculatePeriodRange
  split_ifs <;> norm_num

/-- An OOO window from instant 0 to instant 10 for user 1. -/
def c7Window : OOOStatus := ⟨1, 0, 10⟩

/-- C7 counterexample: at now = 0, which lies in the inclusive range
[0, 10] of the user's OOO window, the repository query IsUserOOO says the
user is out-of-office but the model predicate OOOStatus.IsActive — which
uses strict After/Before comparisons — says the window is not active.
The two do not both implement the inclusive-endpoint rule. -/
theorem c7_counterexample :
    (0 : Int) ≤ 0 ∧ (0 : Int) ≤ 10
    ∧ isUserOOO [c7Window] 1 0 = true
    ∧ oooIsActive c7Window 0 = false := by decide

/-- C7 (amended): the repository query IsUserOOO decides membership of now
in the inclusive range [start, end] of some window of the user, while
OOOStatus.IsActive uses strict endpoints: it is true iff
start < now < end. -/
theorem ooo_inclusive_vs_strict (store : List OOOStatus) (w : OOOStatus)
    (u : Nat) (now : Int) :
    (isUserOOO store u now = true ↔
      ∃ o ∈ store, o.userID = u ∧ o.startDate ≤ now ∧ now ≤ o.endDate)
    ∧ (oooIsActive w now = true ↔ w.startDate < now ∧ now < w.endDate) := by
  constructor
  · simp [isUserOOO, List.length_pos_iff_exists_mem, List.mem_filter, and_assoc]
  · simp [oooIsActive]

/-! ## internal/service/badges/evaluator.go and the badge service -/

namespace Badges

/-- models.BadgeCriteria, the parsed criteria JSON.  `value` is the JSON
number of the criterion; `none` models a JSON value that is not a number
(the Go code's failed float64 type assertion). -/
structure BadgeCriteria where
  metric : String
  operator : String
  value : Option ℚ
  period : String
deriving DecidableEq, Repr

/-- models.Badge; `criteria := none` models criteria JSON that fails to
parse in EvaluateBadge. -/
structure Badge where
  id : Nat
  name : String
  criteria : Option BadgeCriteria
deriving DecidableEq, Repr

/-- MetricsRepository.GetMetricsByUser: the user's rows whose date lies in
the inclusive range. -/
def getMetricsByUser (ms : List ReviewMetrics) (userID : Nat) (startDate endDate : Int) :
    List ReviewMetrics :=
  ms.filter (fun m =>
    decide (m.userID = some userID) && decide (startDate ≤ m.date) && decide (m.date ≤ endDate))

/-- MetricsRepository.GetByDateRange with no filters: all rows whose date
lies in the inclusive range (the DESC ordering of the SQL query does not
matter to the evaluator, which aggregates by user). -/
def getByDateRange (ms : List ReviewMetrics) (startDate endDate : Int) :
    List ReviewMetrics :=
  ms.filter (fun m => decide (startDate ≤ m.date) && decide (m.date ≤ endDate))

/-- The badge service's aggregateUserMetrics: the Go string-keyed float map,
as an association list.  An empty map when the user has no rows in the
window; otherwise means of the four per-row averages plus the summed
completed_reviews, with external_reviews set to the same sum (the code's
placeholder). -/
def aggregateUserMetrics (ms : List ReviewMetrics) (userID : Nat)
    (startDate endDate : Int) : List (String × ℚ) :=
  let userMetrics := getMetricsByUser ms userID startDate endDate
  match userMetrics with
  | [] => []
  | _ =>
    let totalTTFR : ℚ := (userMetrics.map (fun m => ((m.avgTTFR.getD 0 : Int) : ℚ))).sum
    let totalCommentCount : ℚ := (userMetrics.map (fun m => m.avgCommentCount.getD 0)).sum
    let totalCommentLength : ℚ := (userMetrics.map (fun m => m.avgCommentLength.getD 0)).sum
    let totalEngagementScore : ℚ := (userMetrics.map (fun m => m.engagementScore.getD 0)).sum
    let totalCompletedReviews : Int := (userMetrics.map (fun m => m.completedReviews)).sum
    let metricsCount : ℚ := (userMetrics.length : ℚ)
    [("avg_ttfr", totalTTFR / metricsCount),
     ("avg_comment_count", totalCommentCount / metricsCount),
     ("avg_comment_length", totalCommentLength / metricsCount),
     ("engagement_score", totalEngagementScore / metricsCount),
     ("completed_reviews", (totalCompletedReviews : ℚ)),
     ("external_reviews", (totalCompletedReviews : ℚ))]

/-- getMetricValue: the per-row value used by top-N ranking; errors for any
metric outside the four supported ones (external_reviews included). -/
def getMetricValue (m : ReviewMetrics) (metric : String) : Except String ℚ :=
  if metric = "completed_reviews" then .ok (m.completedReviews : ℚ)
  else if metric = "engagement_score" then .ok (m.engagementScore.getD 0)
  else if metric = "avg_ttfr" then .ok ((m.avgTTFR.getD 0 : Int) : ℚ)
  else if metric = "avg_comment_count" then .ok (m.avgCommentCount.getD 0)
  else .error "top ranking not supported for metric"

/-- One `userAggregates[u] += v` step of aggregateMetricsByUser's Go map,
on the association-list model (keyed by first appearance). -/
def bump (acc : List (Nat × ℚ)) (u : Nat) (v : ℚ) : List (Nat × ℚ) :=
  match acc with
  | [] => [(u, v)]
  | (k, x) :: rest => if k = u then (k, x + v) :: rest else (k, x) :: bump rest u v

/-- aggregateMetricsByUser: sum each user's per-row metric values, skipping
team-level rows (user NULL); the first unsupported metric value aborts
with the error. -/
def aggregateMetricsByUser (rows : List ReviewMetrics) (metric : String)
    (acc : List (Nat × ℚ)) : Except String (List (Nat × ℚ)) :=
  match rows with
  | [] => .ok acc
  | m :: rest =>
    match m.userID with
    | none => aggregateMetricsByUser rest metric acc
    | some u =>
      match getMetricValue m metric with
      | .error e => .error e
      | .ok v => aggregateMetricsByUser rest metric (bump acc u v)

/-- The ordering of sortUserRankings: by value, descending (higher is
better) — for every metric. -/
def rankLe (a b : Nat × ℚ) : Prop := b.2 ≤ a.2

instance : DecidableRel rankLe := fun a b => inferInstanceAs (Decidable (b.2 ≤ a.2))

instance : IsTotal (Nat × ℚ) rankLe := ⟨fun a b => le_total b.2 a.2⟩

instance : IsTrans (Nat × ℚ) rankLe := ⟨fun _ _ _ h1 h2 => le_trans h2 h1⟩

/-- sortUserRankings: sort the user aggregates by value descending
(deterministic refinement of Go's unstable sort.Slice). -/
def sortUserRankings (aggs : List (Nat × ℚ)) : List (Nat × ℚ) :=
  List.insertionSort rankLe aggs

/-- evaluateTopRanking: true iff the user appears among the first topN
entries of the descending ranking of summed per-row values over the
period window. -/
def evaluateTopRanking (ms : List ReviewMetrics) (now : Int) (metric : String)
    (topN : Int) (period : String) (userID : Nat) : Except String Bool :=
  let r := calculatePeriodRange period now
  let allMetrics := getByDateRange ms r.1 r.2
  match aggregateMetricsByUser allMetrics metric [] with
  | .error e => .error e
  | .ok aggs =>
    let rankings := sortUserRankings aggs
    .ok ((rankings.take topN.toNat).any (fun p => p.1 == userID))

/-- evaluateMetricCriteria: the five comparison operators; anything else
errors. -/
def evaluateMetricCriteria (operator : String) (threshold actualValue : ℚ) :
    Except String Bool :=
  if operator = "<" then .ok (decide (actualValue < threshold))
  else if operator = "<=" then .ok (decide (actualValue ≤ threshold))
  else if operator = ">" then .ok (decide (actualValue > threshold))
  else if operator = ">=" then .ok (decide (actualValue ≥ threshold))
  else if operator = "==" then .ok (decide (actualValue = threshold))
  else .error "unsupported operator"

/-- checkCriteria: compute the period window, aggregate the user's metrics,
return false when the metric is absent (no data); "top" goes through the
global ranking, every other operator compares the aggregate to the
criterion's value.  Go's int(topN) float conversion truncates. -/
def checkCriteria (ms : List ReviewMetrics) (now : Int) (c : BadgeCriteria)
    (userID : Nat) : Except String Bool :=
  let r := calculatePeriodRange c.period now
  let userMetrics := aggregateUserMetrics ms userID r.1 r.2
  match userMetrics.lookup c.metric with
  | none => .ok false
  | some metricValue =>
    if c.operator = "top" then
      match c.value with
      | none => .error "invalid value type for top operator"
      | some q => evaluateTopRanking ms now c.metric (goInt q) c.period userID
    else
      match c.value with
      | none => .error "invalid value type"
      | some threshold => evaluateMetricCriteria c.operator threshold metricValue

/-- EvaluateBadge: parse the criteria JSON (a parse failure errors), then
checkCriteria. -/
def evaluateBadge (ms : List ReviewMetrics) (now : Int) (b : Badge) (userID : Nat) :
    Except String Bool :=
  match b.criteria with
  | none => .error "failed to parse badge criteria"
  | some c => checkCriteria ms now c userID

/-! ### user_badges table and BadgeRepository.AwardBadge (the repository
has no unique-key shortcut here: the table is a plain list of rows, so
at-most-once awarding is a property of the code, not of the model). -/

/-- The user_badges table: (user_id, badge_id, earned_at) rows. -/
abbrev UserBadgeStore := List (Nat × Nat × Int)

/-- The number of user_badges rows for one (user, badge) pair. -/
def countPair (s : UserBadgeStore) (userID badgeID : Nat) : Nat :=
  (s.filter (fun r => decide (r.1 = userID) && decide (r.2.1 = badgeID))).length

/-- BadgeRepository.HasUserEarnedBadge: count of rows for the pair > 0. -/
def hasUserEarnedBadge (s : UserBadgeStore) (userID badgeID : Nat) : Bool :=
  decide (0 < countPair s userID badgeID)

/-- BadgeRepository.AwardBadge: a silent success no-op when the pair is
already awarded, otherwise insert one row with earned_at = now. -/
def awardBadge (now : Int) (userID badgeID : Nat) (s : UserBadgeStore) :
    UserBadgeStore :=
  if hasUserEarnedBadge s userID badgeID then s else s ++ [(userID, badgeID, now)]

/-- EvaluateAllBadges: for every badge and every user, skip pairs already
awarded, evaluate the badge (evaluation errors skip the pair), and award
newly qualifying pairs. -/
def evaluateAllBadges (ms : List ReviewMetrics) (now : Int) (badges : List Badge)
    (users : List Nat) (s : UserBadgeStore) : UserBadgeStore :=
  badges.foldl (fun s1 b =>
    users.foldl (fun s2 u =>
      if hasUserEarnedBadge s2 u b.id then s2
      else
        match evaluateBadge ms now b u with
        | .error _ => s2
        | .ok true => awardBadge now u b.id s2
        | .ok false => s2) s1) s

lemma countPair_append_single (s : UserBadgeStore) (p : Nat × Nat × Int) (u b : Nat) :
    countPair (s ++ [p]) u b =
      countPair s u b + (if p.1 = u ∧ p.2.1 = b then 1 else 0) := by
  simp only [countPair, List.filter_append, List.length_append]
  congr 1
  by_cases h : p.1 = u ∧ p.2.1 = b
  · simp [List.filter, h.1, h.2]
  · rw [Classical.not_and_iff_or_not_not] at h
    cases h with
    | inl h => simp [List.filter, h]
    | inr h => simp [List.filter, h]

lemma countPair_award_le_one (now : Int) (u' b' u b : Nat) (s : UserBadgeStore)
    (h : countPair s u b ≤ 1) : countPair (awardBadge now u' b' s) u b ≤ 1 := by
  unfold awardBadge
  split_ifs with hx
  · exact h
  · rw [countPair_append_single]
    by_cases hub : u' = u ∧ b' = b
    · have h0 : countPair s u' b' = 0 := by
        simpa [hasUserEarnedBadge, Nat.pos_iff_ne_zero] using hx
      rcases hub with ⟨hu, hb⟩
      subst hu; subst hb
      simp [h0]
    · simp [hub, h]

lemma foldl_preserve {α : Type} (P : UserBadgeStore → Prop)
    (f : UserBadgeStore → α → UserBadgeStore)
    (hf : ∀ s a, P s → P (f s a)) :
    ∀ (l : List α) (s : UserBadgeStore), P s → P (l.foldl f s) := by
  intro l
  induction l with
  | nil => intro s hs; exact hs
  | cons a l ih => intro s hs; exact ih _ (hf s a hs)

lemma evaluateAllBadges_preserves (ms : List ReviewMetrics) (now : Int)
    (badges : List Badge) (users : List Nat) (u b : Nat) (s : UserBadgeStore)
    (h : countPair s u b ≤ 1) :
    countPair (evaluateAllBadges ms now badges users s) u b ≤ 1 := by
  unfold evaluateAllBadges
  refine foldl_preserve (fun st => countPair st u b ≤ 1) _ ?_ badges s h
  intro s1 bdg h1
  refine foldl_preserve (fun st => countPair st u b ≤ 1) _ ?_ users s1 h1
  intro s2 uid h2
  split_ifs with hx
  · exact h2
  · cases hev : evaluateBadge ms now bdg uid with
    | error e => simp [hev]; exact h2
    | ok q =>
      cases q with
      | true => simp [hev]; exact countPair_award_le_one now uid bdg.id u b s2 h2
      | false => simp [hev]; exact h2

/-! ### The ranking of evaluateTopRanking, characterized. -/

/-- The four metrics getMetricValue supports for top-N ranking. -/
def supportedMetric (metric : String) : Prop :=
  metric = "completed_reviews" ∨ metric = "engagement_score" ∨ metric = "avg_ttfr"
    ∨ metric = "avg_comment_count"

/-- The value getMetricValue returns for a supported metric (0 for the
unsupported default, never reached under `supportedMetric`). -/
def metricValueD (m : ReviewMetrics) (metric : String) : ℚ :=
  if metric = "completed_reviews" then (m.completedReviews : ℚ)
  else if metric = "engagement_score" then m.engagementScore.getD 0
  else if metric = "avg_ttfr" then ((m.avgTTFR.getD 0 : Int) : ℚ)
  else if metric = "avg_comment_count" then m.avgCommentCount.getD 0
  else 0

lemma getMetricValue_supported (m : ReviewMetrics) (metric : String)
    (h : supportedMetric metric) :
    getMetricValue m metric = .ok (metricValueD m metric) := by
  rcases h with h | h | h | h <;> subst h <;> rfl

/-- One row's effect on the user aggregates (the error-free restatement of
aggregateMetricsByUser's loop body). -/
def aggStep (metric : String) (acc : List (Nat × ℚ)) (m : ReviewMetrics) :
    List (Nat × ℚ) :=
  match m.userID with
  | none => acc
  | some u => bump acc u (metricValueD m metric)

/-- The user aggregates of a window, as a plain fold. -/
def aggTotal (rows : List ReviewMetrics) (metric : String) (acc : List (Nat × ℚ)) :
    List (Nat × ℚ) :=
  rows.foldl (aggStep metric) acc

lemma aggregateMetricsByUser_supported (rows : List ReviewMetrics) (metric : String)
    (acc : List (Nat × ℚ)) (h : supportedMetric metric) :
    aggregateMetricsByUser rows metric acc = .ok (aggTotal rows metric acc) := by
  induction rows generalizing acc with
  | nil => rfl
  | cons m rest ih =>
    simp only [aggregateMetricsByUser, aggTotal, List.foldl_cons]
    cases hm : m.userID with
    | none => simpa [aggStep, hm] using ih acc
    | some u =>
      rw [getMetricValue_supported m metric h]
      simpa [aggStep, hm] using ih (bump acc u (metricValueD m metric))

/-- The user's rows within a window. -/
def userRows (rows : List ReviewMetrics) (u : Nat) : List ReviewMetrics :=
  rows.filter (fun m => decide (m.userID = some u))

/-- The sum of the user's per-row metric values — evaluateTopRanking's
per-user aggregate for every metric. -/
def userSum (rows : List ReviewMetrics) (metric : String) (u : Nat) : ℚ :=
  ((userRows rows u).map (fun m => metricValueD m metric)).sum

lemma lookup_cons (k : Nat) (x : ℚ) (rest : List (Nat × ℚ)) (w : Nat) :
    List.lookup w ((k, x) :: rest) = if w = k then some x else List.lookup w rest := by
  by_cases h : w = k
  · subst h; simp [List.lookup]
  · rw [if_neg h]
    simp only [List.lookup]
    rw [show (w == k) = false from beq_eq_false_iff_ne.mpr h]

lemma bump_lookup (acc : List (Nat × ℚ)) (u : Nat) (v : ℚ) (w : Nat) :
    (bump acc u v).lookup w =
      if w = u then
        some (match acc.lookup u with | some x => x + v | none => v)
      else acc.lookup w := by
  induction acc with
  | nil =>
    by_cases hw : w = u
    · subst hw; simp [bump, lookup_cons]
    · simp [bump, lookup_cons, hw]
  | cons p rest ih =>
    obtain ⟨k, x⟩ := p
    simp only [bump]
    by_cases hk : k = u
    · subst hk
      rw [if_pos rfl]
      simp only [lookup_cons]
      by_cases hw : w = k
      · simp [hw]
      · simp [hw]
    · rw [if_neg hk]
      simp only [lookup_cons, ih]
      by_cases hw : w = k
      · have h1 : ¬ (w = u) := fun h => hk (hw.symm.trans h)
        simp [hw, h1, hk]
      · have hne : ¬ (u = k) := fun h => hk h.symm
        simp [hw, hne]

lemma aggTotal_lookup (metric : String) (rows : List ReviewMetrics) :
    ∀ (acc : List (Nat × ℚ)) (w : Nat),
    (aggTotal rows metric acc).lookup w =
      match acc.lookup w with
      | some x => some (x + userSum rows metric w)
      | none =>
        if userRows rows w = [] then none else some (userSum rows metric w) := by
  induction rows with
  | nil =>
    intro acc w
    simp only [aggTotal, List.foldl_nil, userSum, userRows, List.filter_nil,
      List.map_nil, List.sum_nil]
    cases acc.lookup w <;> simp
  | cons m rest ih =>
    intro acc w
    simp only [aggTotal, List.foldl_cons] at *
    cases hm : m.userID with
    | none =>
      rw [ih]
      have hfil : (List.filter (fun m => decide (m.userID = some w)) (m :: rest))
          = List.filter (fun m => decide (m.userID = some w)) rest := by
        simp [List.filter, hm]
      simp [aggStep, hm, userRows, userSum, hfil]
    | some uu =>
      rw [show aggStep metric acc m = bump acc uu (metricValueD m metric) by
        simp [aggStep, hm]]
      rw [ih]
      by_cases hw : w = uu
      · subst hw
        have hfil : (List.filter (fun x => decide (x.userID = some w)) (m :: rest))
            = m :: List.filter (fun x => decide (x.userID = some w)) rest := by
          simp [List.filter, hm]
        rw [bump_lookup]
        simp only [if_pos rfl, userSum, userRows, hfil, List.map_cons, List.sum_cons]
        cases hacc : acc.lookup w with
        | none => simp
        | some x => simp [add_assoc]
      · have hne : ¬ (uu = w) := fun h => hw h.symm
        have hfil : (List.filter (fun x => decide (x.userID = some w)) (m :: rest))
            = List.filter (fun x => decide (x.userID = some w)) rest := by
          simp [List.filter_cons, hm, hne]
        rw [bump_lookup]
        simp [hw, userRows, userSum, hfil]

lemma sortUserRankings_sorted (aggs : List (Nat × ℚ)) :
    List.Sorted rankLe (sortUserRankings aggs) :=
  List.sorted_insertionSort rankLe aggs

lemma sortUserRankings_perm (aggs : List (Nat × ℚ)) :
    (sortUserRankings aggs).Perm aggs :=
  List.perm_insertionSort rankLe aggs

/-- The window of metrics rows a top-N evaluation ranks over. -/
def topWindow (ms : List ReviewMetrics) (now : Int) (period : String) :
    List ReviewMetrics :=
  getByDateRange ms (calculatePeriodRange period now).1 (calculatePeriodRange period now).2

lemma any_fst_eq_mem (l : List (Nat × ℚ)) (u : Nat) :
    (l.any (fun p => p.1 == u)) = decide (u ∈ l.map Prod.fst) := by
  rw [Bool.eq_iff_iff]
  simp only [List.any_eq_true, List.mem_map, beq_iff_eq, decide_eq_true_eq]

/-! ### The ranking the SPEC (§4.G) prescribes, for comparison with the
ranking the code implements.  These definitions follow the spec's words,
not the source. -/

/-- The users with rows in a window, in first-appearance order. -/
def usersOf (rows : List ReviewMetrics) : List Nat :=
  rows.foldl (fun acc m =>
    match m.userID with
    | some v => if v ∈ acc then acc else acc ++ [v]
    | none => acc) []

/-- Spec §4.G per-user aggregation: sum for completed_reviews, the mean of
the matching rows for the average metrics. -/
def specAggregateG (rows : List ReviewMetrics) (metric : String) (u : Nat) : ℚ :=
  if metric = "completed_reviews" then
    ((userRows rows u).map (fun m => (m.completedReviews : ℚ))).sum
  else
    ((userRows rows u).map (fun m => metricValueD m metric)).sum
      / ((userRows rows u).length : ℚ)

/-- Spec §4.G sort direction: for avg_ttfr smaller is better (ascending),
for the other metrics larger is better (descending). -/
def specBetterG (metric : String) (a b : ℚ) : Prop :=
  if metric = "avg_ttfr" then a < b else b < a

instance (metric : String) (a b : ℚ) : Decidable (specBetterG metric a b) := by
  unfold specBetterG
  infer_instance

/-- The user's rank under the spec's ranking: 1 plus the number of users
with a strictly better aggregate. -/
def specRankG (rows : List ReviewMetrics) (metric : String) (u : Nat) : Nat :=
  1 + ((usersOf rows).filter (fun v =>
    decide (specBetterG metric (specAggregateG rows metric v)
      (specAggregateG rows metric u)))).length

lemma external_eq_completed_lookup (ms : List ReviewMetrics) (u : Nat) (sD eD : Int) :
    (aggregateUserMetrics ms u sD eD).lookup "external_reviews"
      = (aggregateUserMetrics ms u sD eD).lookup "completed_reviews" := by
  simp only [aggregateUserMetrics]
  cases h : getMetricsByUser ms u sD eD with
  | nil => rfl
  | cons m rest => rfl

end Badges

/-! ### Claims C4 and C9: the top-N ranking. -/

/-- The instant the C4/C9 evaluations run at. -/
def c4Now : Int := 1700000000

/-- A date inside the all_time window at c4Now. -/
def c4Date : Int := 1690000000

/-- User 1's metrics row: avg_ttfr 60 minutes. -/
def c4Row1 : ReviewMetrics :=
  { date := c4Date, team := "t", userID := some 1, projectID := none,
    totalReviews := 1, completedReviews := 0, avgTTFR := some 60,
    avgTimeToApproval := none, avgCommentCount := none,
    avgCommentLength := none, engagementScore := none }

/-- User 2's metrics row: avg_ttfr 120 minutes. -/
def c4Row2 : ReviewMetrics :=
  { date := c4Date, team := "t", userID := some 2, projectID := none,
    totalReviews := 1, completedReviews := 0, avgTTFR := some 120,
    avgTimeToApproval := none, avgCommentCount := none,
    avgCommentLength := none, engagementScore := none }

/-- The C4 metrics table. -/
def c4Metrics : List ReviewMetrics := [c4Row1, c4Row2]

/-- A top-1 avg_ttfr badge criterion over all_time. -/
def c4Criteria : Badges.BadgeCriteria := ⟨"avg_ttfr", "top", some 1, "all_time"⟩

/-- C4 counterexample: user 1 is the fastest reviewer (avg_ttfr 60 vs 120),
so under the spec's §4.G ranking (ascending for avg_ttfr) their rank is
1 ≤ value = 1 — yet the code's evaluation of the top-1 criterion returns
false, because sortUserRankings sorts every metric descending. -/
theorem c4_counterexample :
    Badges.specRankG (Badges.topWindow c4Metrics c4Now "all_time") "avg_ttfr" 1 = 1
    ∧ (1 : Nat) ≤ 1
    ∧ Badges.checkCriteria c4Metrics c4Now c4Criteria 1 = .ok false := by
  refine ⟨?_, le_refl 1, ?_⟩
  · simp [Badges.specRankG, Badges.specAggregateG, Badges.specBetterG,
      Badges.usersOf, Badges.userRows, Badges.topWindow, Badges.getByDateRange,
      Badges.calculatePeriodRange, Badges.metricValueD, epoch2000,
      c4Metrics, c4Row1, c4Row2, c4Now, c4Date, List.filter]
    norm_num
  · simp [Badges.checkCriteria, Badges.aggregateUserMetrics,
      Badges.getMetricsByUser, Badges.calculatePeriodRange, epoch2000,
      Badges.evaluateTopRanking, Badges.getByDateRange,
      Badges.aggregateMetricsByUser, Badges.getMetricValue, Badges.bump,
      Badges.sortUserRankings, Badges.rankLe, List.insertionSort,
      List.orderedInsert, goInt, c4Criteria, c4Metrics, c4Row1, c4Row2,
      c4Now, c4Date, List.lookup, List.filter]
    norm_num

/-- C4 (amended): for the four supported metrics, evaluating a "top"
criterion never errors and returns true iff the user is among the first
⌊value⌋ entries of the ranking that sorts the users by their SUMMED
per-row metric values, DESCENDING for every metric — avg_ttfr included
(not ascending, and not a mean, as §4.G prescribes). -/
theorem evaluateTopRanking_sum_descending (ms : List ReviewMetrics) (now : Int)
    (period metric : String) (topN : Int) (u : Nat)
    (h : Badges.supportedMetric metric) :
    Badges.evaluateTopRanking ms now metric topN period u =
        .ok (decide (u ∈
          (((Badges.sortUserRankings
              (Badges.aggTotal (Badges.topWindow ms now period) metric [])).take
            topN.toNat).map Prod.fst)))
    ∧ List.Sorted Badges.rankLe
        (Badges.sortUserRankings
          (Badges.aggTotal (Badges.topWindow ms now period) metric []))
    ∧ (Badges.sortUserRankings
          (Badges.aggTotal (Badges.topWindow ms now period) metric [])).Perm
        (Badges.aggTotal (Badges.topWindow ms now period) metric [])
    ∧ (∀ w, (Badges.aggTotal (Badges.topWindow ms now period) metric []).lookup w =
        if Badges.userRows (Badges.topWindow ms now period) w = [] then none
        else some (Badges.userSum (Badges.topWindow ms now period) metric w)) := by
  refine ⟨?_, Badges.sortUserRankings_sorted _, Badges.sortUserRankings_perm _, ?_⟩
  · simp only [Badges.evaluateTopRanking]
    rw [Badges.aggregateMetricsByUser_supported _ _ _ h]
    simp only []
    rw [Badges.any_fst_eq_mem]
    rfl
  · intro w
    rw [Badges.aggTotal_lookup]
    rfl

/-- Witness for C4's amended theorem at the concrete metric
completed_reviews. -/
theorem evaluateTopRanking_sum_descending_witness :
    Badges.evaluateTopRanking c4Metrics c4Now "completed_reviews" 1 "all_time" 1 =
        .ok (decide (1 ∈
          (((Badges.sortUserRankings
              (Badges.aggTotal (Badges.topWindow c4Metrics c4Now "all_time")
                "completed_reviews" [])).take
            (1 : Int).toNat).map Prod.fst)))
    ∧ List.Sorted Badges.rankLe
        (Badges.sortUserRankings
          (Badges.aggTotal (Badges.topWindow c4Metrics c4Now "all_time")
            "completed_reviews" []))
    ∧ (Badges.sortUserRankings
          (Badges.aggTotal (Badges.topWindow c4Metrics c4Now "all_time")
            "completed_reviews" [])).Perm
        (Badges.aggTotal (Badges.topWindow c4Metrics c4Now "all_time")
          "completed_reviews" [])
    ∧ (∀ w, (Badges.aggTotal (Badges.topWindow c4Metrics c4Now "all_time")
          "completed_reviews" []).lookup w =
        if Badges.userRows (Badges.topWindow c4Metrics c4Now "all_time") w = [] then none
        else some (Badges.userSum (Badges.topWindow c4Metrics c4Now "all_time")
          "completed_reviews" w)) :=
  evaluateTopRanking_sum_descending c4Metrics c4Now "all_time" "completed_reviews" 1 1
    (Or.inl rfl)

/-- User 1's metrics row for C9: 5 completed reviews. -/
def c9Row1 : ReviewMetrics :=
  { date := c4Date, team := "t", userID := some 1, projectID := none,
    totalReviews := 5, completedReviews := 5, avgTTFR := none,
    avgTimeToApproval := none, avgCommentCount := none,
    avgCommentLength := none, engagementScore := none }

/-- User 2's metrics row for C9: 3 completed reviews. -/
def c9Row2 : ReviewMetrics :=
  { date := c4Date, team := "t", userID := some 2, projectID := none,
    totalReviews := 3, completedReviews := 3, avgTTFR := none,
    avgTimeToApproval := none, avgCommentCount := none,
    avgCommentLength := none, engagementScore := none }

/-- The C9 metrics table. -/
def c9Metrics : List ReviewMetrics := [c9Row1, c9Row2]

/-- A top-1 criterion on external_reviews. -/
def c9CriteriaExternal : Badges.BadgeCriteria :=
  ⟨"external_reviews", "top", some 1, "all_time"⟩

/-- The same top-1 criterion on completed_reviews. -/
def c9CriteriaCompleted : Badges.BadgeCriteria :=
  ⟨"completed_reviews", "top", some 1, "all_time"⟩

/-- C9 counterexample: although aggregateUserMetrics reports
external_reviews = completed_reviews, a top-N criterion on
external_reviews errors (getMetricValue does not support it for ranking)
and is never satisfied, while the identical criterion on
completed_reviews is satisfied by user 1: the claimed equivalence fails
for the "top" operator. -/
theorem c9_counterexample :
    (Badges.checkCriteria c9Metrics c4Now c9CriteriaExternal 1).toOption = none
    ∧ Badges.checkCriteria c9Metrics c4Now c9CriteriaCompleted 1 = .ok true := by
  constructor
  · simp [Badges.checkCriteria, Badges.aggregateUserMetrics,
      Badges.getMetricsByUser, Badges.calculatePeriodRange, epoch2000,
      Badges.evaluateTopRanking, Badges.getByDateRange,
      Badges.aggregateMetricsByUser, Badges.getMetricValue, goInt,
      c9CriteriaExternal, c9Metrics, c9Row1, c9Row2, c4Now, c4Date,
      List.lookup, List.filter, Except.toOption]
  · simp [Badges.checkCriteria, Badges.aggregateUserMetrics,
      Badges.getMetricsByUser, Badges.calculatePeriodRange, epoch2000,
      Badges.evaluateTopRanking, Badges.getByDateRange,
      Badges.aggregateMetricsByUser, Badges.getMetricValue, Badges.bump,
      Badges.sortUserRankings, Badges.rankLe, List.insertionSort,
      List.orderedInsert, goInt, c9CriteriaCompleted, c9Metrics, c9Row1,
      c9Row2, c4Now, c4Date, List.lookup, List.filter]
    norm_num

/-- C9 (amended): the badge evaluator's aggregateUserMetrics reports
external_reviews exactly equal to the user's summed completed_reviews
over the window, and a criterion on external_reviews with any of the five
comparison operators is satisfied iff the same criterion on
completed_reviews is; the equivalence does not extend to the "top"
operator, for which external_reviews always errors. -/
theorem externalReviews_alias (ms : List ReviewMetrics) (u : Nat)
    (sD eD now : Int) (v : Option ℚ) (p op : String)
    (hop : op = "<" ∨ op = "<=" ∨ op = ">" ∨ op = ">=" ∨ op = "==") :
    (Badges.aggregateUserMetrics ms u sD eD).lookup "external_reviews"
        = (Badges.aggregateUserMetrics ms u sD eD).lookup "completed_reviews"
    ∧ Badges.checkCriteria ms now ⟨"external_reviews", op, v, p⟩ u
        = Badges.checkCriteria ms now ⟨"completed_reviews", op, v, p⟩ u := by
  refine ⟨Badges.external_eq_completed_lookup ms u sD eD, ?_⟩
  simp only [Badges.checkCriteria]
  rw [Badges.external_eq_completed_lookup]
  cases hl : (Badges.aggregateUserMetrics ms u
      (Badges.calculatePeriodRange p now).1
      (Badges.calculatePeriodRange p now).2).lookup "completed_reviews" with
  | none => rfl
  | some mv => rcases hop with h | h | h | h | h <;> subst h <;> rfl

/-- Witness for C9's amended theorem at the concrete operator "<". -/
theorem externalReviews_alias_witness :
    (Badges.aggregateUserMetrics c9Metrics 1 0 1).lookup "external_reviews"
        = (Badges.aggregateUserMetrics c9Metrics 1 0 1).lookup "completed_reviews"
    ∧ Badges.checkCriteria c9Metrics c4Now ⟨"external_reviews", "<", some 1, "all_time"⟩ 1
        = Badges.checkCriteria c9Metrics c4Now ⟨"completed_reviews", "<", some 1, "all_time"⟩ 1 :=
  externalReviews_alias c9Metrics 1 0 1 c4Now (some 1) "all_time" "<" (Or.inl rfl)

/-! ## The leaderboard service (getLeaderboard / sortLeaderboard) -/

namespace Leaderboard

/-- leaderboard.Entry, one leaderboard line per user. -/
structure Entry where
  userID : Nat
  username : String
  team : String
  completedReviews : Int
  avgTTFR : ℚ
  avgCommentCount : ℚ
  engagementScore : ℚ
  badgeCount : Int
  rank : Int
deriving DecidableEq, Repr

/-- The ordering sortLeaderboard establishes: descending for
completed_reviews, engagement_score, avg_comment_count and any unknown
metric (which falls back to completed_reviews); ascending for avg_ttfr. -/
def entryLe (metric : String) (a b : Entry) : Prop :=
  if metric = "completed_reviews" then b.completedReviews ≤ a.completedReviews
  else if metric = "engagement_score" then b.engagementScore ≤ a.engagementScore
  else if metric = "avg_ttfr" then a.avgTTFR ≤ b.avgTTFR
  else if metric = "avg_comment_count" then b.avgCommentCount ≤ a.avgCommentCount
  else b.completedReviews ≤ a.completedReviews

instance (metric : String) : DecidableRel (entryLe metric) := fun a b => by
  unfold entryLe
  infer_instance

instance (metric : String) : IsTotal Entry (entryLe metric) :=
  ⟨fun a b => by unfold entryLe; split_ifs <;> exact le_total _ _⟩

instance (metric : String) : IsTrans Entry (entryLe metric) :=
  ⟨fun a b c h1 h2 => by
    unfold entryLe at h1 h2 ⊢
    split_ifs at h1 h2 ⊢ <;>
      first
      | exact le_trans h2 h1
      | exact le_trans h1 h2⟩

/-- sortLeaderboard (deterministic refinement of Go's unstable
sort.Slice with the per-metric less functions). -/
def sortLeaderboard (entries : List Entry) (metric : String) : List Entry :=
  List.insertionSort (entryLe metric) entries

/-- The rank-assignment loop `entries[i].Rank = i + 1` of getLeaderboard. -/
def assignRanks : Int → List Entry → List Entry
  | _, [] => []
  | i, e :: es => { e with rank := i } :: assignRanks (i + 1) es

/-- The pure tail of getLeaderboard once the per-user entries are built:
sort by the metric, assign ranks 1.., truncate to `limit` when
`limit > 0 && len(entries) > limit`. -/
def getLeaderboardOrder (entries : List Entry) (metric : String) (limit : Int) :
    List Entry :=
  let ranked := assignRanks 1 (sortLeaderboard entries metric)
  if 0 < limit ∧ limit < (ranked.length : Int) then ranked.take limit.toNat else ranked

lemma assignRanks_length (l : List Entry) : ∀ i, (assignRanks i l).length = l.length := by
  induction l with
  | nil => intro i; rfl
  | cons e es ih => intro i; simp [assignRanks, ih]

/-- The integer list [i, i+1, ..., i+n-1]. -/
def intRange (i : Int) : Nat → List Int
  | 0 => []
  | n + 1 => i :: intRange (i + 1) n

lemma intRange_take (m : Nat) : ∀ (n : Nat) (i : Int),
    (intRange i n).take m = intRange i (min m n) := by
  induction m with
  | zero => intro n i; simp [intRange]
  | succ m ih =>
    intro n i
    cases n with
    | zero => simp [intRange]
    | succ n =>
      have hmin : min (m + 1) (n + 1) = min m n + 1 := by omega
      simp only [intRange, hmin, List.take_succ_cons, ih n (i + 1)]

lemma assignRanks_map_rank (l : List Entry) :
    ∀ i, (assignRanks i l).map (fun e => e.rank) = intRange i l.length := by
  induction l with
  | nil => intro i; rfl
  | cons e es ih =>
    intro i
    simp only [assignRanks, List.map_cons, List.length_cons, intRange, ih]

lemma mem_assignRanks (l : List Entry) :
    ∀ i x, x ∈ assignRanks i l → ∃ b ∈ l, ∃ r, x = { b with rank := r } := by
  induction l with
  | nil => intro i x hx; simp [assignRanks] at hx
  | cons e es ih =>
    intro i x hx
    rcases List.mem_cons.mp hx with h | h
    · exact ⟨e, List.mem_cons_self e es, i, h⟩
    · rcases ih (i + 1) x h with ⟨b, hb, r, rfl⟩
      exact ⟨b, List.mem_cons_of_mem e hb, r, rfl⟩

lemma assignRanks_pairwise (R : Entry → Entry → Prop)
    (hR : ∀ a b i j, R a b → R { a with rank := i } { b with rank := j })
    (l : List Entry) :
    ∀ i, l.Pairwise R → (assignRanks i l).Pairwise R := by
  induction l with
  | nil => intro i _; exact List.Pairwise.nil
  | cons e es ih =>
    intro i h
    rcases List.pairwise_cons.mp h with ⟨he, hes⟩
    refine List.pairwise_cons.mpr ⟨?_, ih (i + 1) hes⟩
    intro x hx
    rcases mem_assignRanks es (i + 1) x hx with ⟨b, hb, r, rfl⟩
    exact hR e b i r (he b hb)

/-- Strictly better on the chosen metric: strictly smaller avg_ttfr,
strictly larger value for every other metric (unknown metrics fall back
to completed_reviews, like the sort). -/
def strictlyBetter (metric : String) (a b : Entry) : Prop :=
  if metric = "completed_reviews" then b.completedReviews < a.completedReviews
  else if metric = "engagement_score" then b.engagementScore < a.engagementScore
  else if metric = "avg_ttfr" then a.avgTTFR < b.avgTTFR
  else if metric = "avg_comment_count" then b.avgCommentCount < a.avgCommentCount
  else b.completedReviews < a.completedReviews

instance (metric : String) : DecidableRel (strictlyBetter metric) := fun a b => by
  unfold strictlyBetter
  infer_instance

lemma strictlyBetter_irrefl (metric : String) (a : Entry) :
    ¬ strictlyBetter metric a a := by
  unfold strictlyBetter
  split_ifs <;> exact lt_irrefl _

lemma strictlyBetter_asymm (metric : String) (a b : Entry)
    (h : strictlyBetter metric a b) : ¬ strictlyBetter metric b a := by
  unfold strictlyBetter at *
  split_ifs at * <;> exact fun h2 => absurd h (lt_asymm h2)

lemma entryLe_and_neq_strictlyBetter (metric : String) (a b : Entry)
    (hle : entryLe metric a b)
    (hd : strictlyBetter metric a b ∨ strictlyBetter metric b a) :
    strictlyBetter metric a b := by
  unfold entryLe at hle
  unfold strictlyBetter at *
  rcases hd with hs | hs
  · exact hs
  · split_ifs at * <;> exact absurd hs (not_lt.mpr hle)

lemma rank_eq_countP (metric : String) (l : List Entry) :
    l.Pairwise (strictlyBetter metric) →
    ∀ (i : Int) (pre : List Entry) (e : Entry) (post : List Entry),
      assignRanks i l = pre ++ e :: post →
      e.rank = i + ((assignRanks i l).countP
        (fun x => decide (strictlyBetter metric x e)) : Int) := by
  induction l with
  | nil =>
    intro _ i pre e post h
    cases pre <;> simp [assignRanks] at h
  | cons a t ih =>
    intro hl i pre e post h
    rcases List.pairwise_cons.mp hl with ⟨ha, ht⟩
    simp only [assignRanks] at h ⊢
    cases pre with
    | nil =>
      simp only [List.nil_append] at h
      have he : e = { a with rank := i } := (List.cons_eq_cons.mp h).1.symm
      subst he
      rw [List.countP_cons]
      have h1 : (decide (strictlyBetter metric { a with rank := i }
          { a with rank := i })) = false :=
        decide_eq_false (strictlyBetter_irrefl metric _)
      have h2 : (assignRanks (i + 1) t).countP
          (fun x => decide (strictlyBetter metric x { a with rank := i })) = 0 := by
        rw [List.countP_eq_zero]
        intro x hx
        rcases mem_assignRanks t (i + 1) x hx with ⟨b, hb, r, rfl⟩
        simp only [decide_eq_true_eq]
        exact strictlyBetter_asymm metric a b (ha b hb)
      rw [h1, h2]
      simp
    | cons p pre' =>
      have htail : assignRanks (i + 1) t = pre' ++ e :: post :=
        (List.cons_eq_cons.mp h).2
      have hrank := ih ht (i + 1) pre' e post htail
      have hmem : e ∈ assignRanks (i + 1) t := by
        rw [htail]
        exact List.mem_append_right pre' (List.mem_cons_self e post)
      rcases mem_assignRanks t (i + 1) e hmem with ⟨b, hb, r, hbe⟩
      have hhead : (decide (strictlyBetter metric { a with rank := i } e)) = true := by
        rw [hbe]
        exact decide_eq_true (ha b hb)
      rw [List.countP_cons, hhead]
      rw [hrank]
      simp only [if_pos trivial]
      omega

lemma sortLeaderboard_sorted (entries : List Entry) (metric : String) :
    List.Sorted (entryLe metric) (sortLeaderboard entries metric) :=
  List.sorted_insertionSort (entryLe metric) entries

lemma sortLeaderboard_length (entries : List Entry) (metric : String) :
    (sortLeaderboard entries metric).length = entries.length :=
  (List.perm_insertionSort (entryLe metric) entries).length_eq

end Leaderboard

/-- C5: for every leaderboard query, the returned entries are sorted
descending for completed_reviews, engagement_score and avg_comment_count,
ascending for avg_ttfr, with any unknown metric falling back to
completed_reviews descending; ranks 1..N are assigned after sorting, and
the result is truncated to the first `limit` entries whenever limit > 0. -/
theorem leaderboard_sort_rank_truncate (entries : List Leaderboard.Entry)
    (metric : String) (limit : Int) :
    List.Sorted
      (fun a b : Leaderboard.Entry =>
        if metric = "completed_reviews" then b.completedReviews ≤ a.completedReviews
        else if metric = "engagement_score" then b.engagementScore ≤ a.engagementScore
        else if metric = "avg_ttfr" then a.avgTTFR ≤ b.avgTTFR
        else if metric = "avg_comment_count" then b.avgCommentCount ≤ a.avgCommentCount
        else b.completedReviews ≤ a.completedReviews)
      (Leaderboard.getLeaderboardOrder entries metric limit)
    ∧ (Leaderboard.getLeaderboardOrder entries metric limit).map (fun e => e.rank)
        = Leaderboard.intRange 1 (Leaderboard.getLeaderboardOrder entries metric limit).length
    ∧ (Leaderboard.getLeaderboardOrder entries metric limit).length
        = (if 0 < limit then min entries.length limit.toNat else entries.length) := by
  have hsorted : List.Sorted (Leaderboard.entryLe metric)
      (Leaderboard.sortLeaderboard entries metric) :=
    Leaderboard.sortLeaderboard_sorted entries metric
  have hranked : (Leaderboard.assignRanks 1
      (Leaderboard.sortLeaderboard entries metric)).Pairwise
        (Leaderboard.entryLe metric) :=
    Leaderboard.assignRanks_pairwise (Leaderboard.entryLe metric)
      (fun a b i j h => h) (Leaderboard.sortLeaderboard entries metric) 1 hsorted
  have hlen : (Leaderboard.assignRanks 1
      (Leaderboard.sortLeaderboard entries metric)).length = entries.length := by
    rw [Leaderboard.assignRanks_length, Leaderboard.sortLeaderboard_length]
  have hout : Leaderboard.getLeaderboardOrder entries metric limit
      = if 0 < limit ∧ limit < ((Leaderboard.assignRanks 1
            (Leaderboard.sortLeaderboard entries metric)).length : Int)
        then (Leaderboard.assignRanks 1
            (Leaderboard.sortLeaderboard entries metric)).take limit.toNat
        else Leaderboard.assignRanks 1 (Leaderboard.sortLeaderboard entries metric) := rfl
  by_cases hc : 0 < limit ∧ limit < ((Leaderboard.assignRanks 1
      (Leaderboard.sortLeaderboard entries metric)).length : Int)
  · rw [hout, if_pos hc]
    refine ⟨?_, ?_, ?_⟩
    · exact List.Pairwise.sublist (List.take_sublist _ _) hranked
    · rw [List.map_take, Leaderboard.assignRanks_map_rank,
        List.length_take, Leaderboard.assignRanks_length, Leaderboard.intRange_take]
    · rw [List.length_take, hlen, if_pos hc.1, Nat.min_comm]
  · rw [hout, if_neg hc]
    refine ⟨hranked, ?_, ?_⟩
    · rw [Leaderboard.assignRanks_map_rank, Leaderboard.assignRanks_length]
    · rw [hlen]
      rw [Classical.not_and_iff_or_not_not] at hc
      rcases hc with hc | hc
      · rw [if_neg hc]
      · rw [hlen] at hc
        split_ifs with hp
        · omega
        · rfl

/-- First tied entry of the C6 counterexample: 5 completed reviews. -/
def c6E1 : Leaderboard.Entry :=
  { userID := 1, username := "a", team := "t", completedReviews := 5,
    avgTTFR := 0, avgCommentCount := 0, engagementScore := 0,
    badgeCount := 0, rank := 0 }

/-- Second tied entry of the C6 counterexample: also 5 completed reviews. -/
def c6E2 : Leaderboard.Entry :=
  { userID := 2, username := "b", team := "t", completedReviews := 5,
    avgTTFR := 0, avgCommentCount := 0, engagementScore := 0,
    badgeCount := 0, rank := 0 }

/-- c6E1 as returned, with rank 1. -/
def c6R1 : Leaderboard.Entry := { c6E1 with rank := 1 }

/-- c6E2 as returned, with rank 2. -/
def c6R2 : Leaderboard.Entry := { c6E2 with rank := 2 }

/-- C6 counterexample: with two entries tied at 5 completed reviews and
limit 0, the second returned entry has rank 2 but zero entries are
strictly better than it on the chosen metric, so its rank is not
1 + (number of strictly-better entries) = 1. -/
theorem c6_counterexample :
    Leaderboard.getLeaderboardOrder [c6E1, c6E2] "completed_reviews" 0 = [c6R1, c6R2]
    ∧ c6R2.rank = 2
    ∧ ([c6R1, c6R2].countP
        (fun x => decide (Leaderboard.strictlyBetter "completed_reviews" x c6R2))) = 0
    ∧ (2 : Int) ≠ 1 + ((0 : Nat) : Int) := by
  refine ⟨?_, rfl, by decide, by decide⟩
  simp [Leaderboard.getLeaderboardOrder, Leaderboard.sortLeaderboard,
    Leaderboard.assignRanks, List.insertionSort, List.orderedInsert,
    Leaderboard.entryLe, c6E1, c6E2, c6R1, c6R2]

/-- C6 (amended): for every leaderboard query with limit = 0 the entries
are sorted per the per-metric order and carry the ranks 1..n in order
(each rank unique); when additionally no two entries tie on the chosen
metric, every returned entry's rank equals 1 plus the number of returned
entries strictly better than it.  (Under ties the rank is still the
1-based position in the sort order, but tied entries receive distinct
ranks, so the strictly-better characterization fails.) -/
theorem leaderboard_rank_eq_strictly_better (entries : List Leaderboard.Entry)
    (metric : String) (pre post : List Leaderboard.Entry) (e : Leaderboard.Entry)
    (hdist : entries.Pairwise (fun a b => Leaderboard.strictlyBetter metric a b
      ∨ Leaderboard.strictlyBetter metric b a))
    (hsplit : Leaderboard.getLeaderboardOrder entries metric 0 = pre ++ e :: post) :
    (Leaderboard.getLeaderboardOrder entries metric 0).map (fun x => x.rank)
        = Leaderboard.intRange 1 (Leaderboard.getLeaderboardOrder entries metric 0).length
    ∧ List.Sorted (Leaderboard.entryLe metric)
        (Leaderboard.getLeaderboardOrder entries metric 0)
    ∧ e.rank = 1 + ((Leaderboard.getLeaderboardOrder entries metric 0).countP
        (fun x => decide (Leaderboard.strictlyBetter metric x e)) : Int) := by
  have hout : Leaderboard.getLeaderboardOrder entries metric 0
      = Leaderboard.assignRanks 1 (Leaderboard.sortLeaderboard entries metric) := by
    unfold Leaderboard.getLeaderboardOrder
    rw [if_neg]
    rintro ⟨h0, _⟩
    exact absurd h0 (lt_irrefl 0)
  have hsorted : List.Sorted (Leaderboard.entryLe metric)
      (Leaderboard.sortLeaderboard entries metric) :=
    Leaderboard.sortLeaderboard_sorted entries metric
  have hdist2 : (Leaderboard.sortLeaderboard entries metric).Pairwise
      (fun a b => Leaderboard.strictlyBetter metric a b
        ∨ Leaderboard.strictlyBetter metric b a) :=
    hdist.perm (List.perm_insertionSort (Leaderboard.entryLe metric) entries).symm
      (fun h => h.symm)
  have hsb : (Leaderboard.sortLeaderboard entries metric).Pairwise
      (Leaderboard.strictlyBetter metric) :=
    (hsorted.and hdist2).imp
      (fun h => Leaderboard.entryLe_and_neq_strictlyBetter metric _ _ h.1 h.2)
  refine ⟨?_, ?_, ?_⟩
  · rw [hout, Leaderboard.assignRanks_map_rank, Leaderboard.assignRanks_length]
  · rw [hout]
    exact Leaderboard.assignRanks_pairwise (Leaderboard.entryLe metric)
      (fun a b i j h => h) _ 1 hsorted
  · rw [hout]
    rw [hout] at hsplit
    exact Leaderboard.rank_eq_countP metric _ hsb 1 pre e post hsplit

/-- Witness for C6's amended theorem: two entries with distinct
completed_reviews (5 and 3); the second returned entry has rank 2 =
1 + 1 strictly-better entry. -/
theorem leaderboard_rank_eq_strictly_better_witness :
    (Leaderboard.getLeaderboardOrder [c6E1, { c6E2 with completedReviews := 3 }]
        "completed_reviews" 0).map (fun x => x.rank)
      = Leaderboard.intRange 1
          (Leaderboard.getLeaderboardOrder [c6E1, { c6E2 with completedReviews := 3 }]
            "completed_reviews" 0).length
    ∧ List.Sorted (Leaderboard.entryLe "completed_reviews")
        (Leaderboard.getLeaderboardOrder [c6E1, { c6E2 with completedReviews := 3 }]
          "completed_reviews" 0)
    ∧ ({ c6E2 with completedReviews := 3, rank := 2 } : Leaderboard.Entry).rank
        = 1 + ((Leaderboard.getLeaderboardOrder [c6E1, { c6E2 with completedReviews := 3 }]
            "completed_reviews" 0).countP
          (fun x => decide (Leaderboard.strictlyBetter "completed_reviews" x
            { c6E2 with completedReviews := 3, rank := 2 })) : Int) :=
  leaderboard_rank_eq_strictly_better [c6E1, { c6E2 with completedReviews := 3 }]
    "completed_reviews" [{ c6E1 with rank := 1 }] []
    { c6E2 with completedReviews := 3, rank := 2 }
    (by decide) (by decide)

/-- C3: for every user and badge, after any number of sequential
EvaluateAllBadges invocations (each with its own metrics snapshot, clock,
badge list and user list) the number of user_badges rows for the pair
stays 0 or 1, provided it started 0 or 1 (a fresh table is empty); and a
repeated AwardBadge call for an already-awarded pair inserts nothing and
returns success unchanged. -/
theorem userBadge_awarded_at_most_once
    (runs : List (List ReviewMetrics × Int × List Badges.Badge × List Nat))
    (s s0 : Badges.UserBadgeStore) (now : Int) (u b : Nat)
    (h1 : Badges.countPair s u b ≤ 1)
    (h2 : Badges.hasUserEarnedBadge s0 u b = true) :
    Badges.countPair
        (runs.foldl
          (fun st r => Badges.evaluateAllBadges r.1 r.2.1 r.2.2.1 r.2.2.2 st) s) u b ≤ 1
    ∧ Badges.awardBadge now u b s0 = s0 := by
  constructor
  · refine Badges.foldl_preserve (fun st => Badges.countPair st u b ≤ 1) _ ?_ runs s h1
    intro st r hst
    exact Badges.evaluateAllBadges_preserves r.1 r.2.1 r.2.2.1 r.2.2.2 u b st hst
  · unfold Badges.awardBadge
    simp [h2]

/-- Witness for C3 at a concrete input: a table already holding the single
row (user 1, badge 2), one EvaluateAllBadges run over badge 5 and user 1. -/
theorem userBadge_awarded_at_most_once_witness :
    Badges.countPair
        (([([], 0, [⟨5, "b", none⟩], [1])] :
            List (List ReviewMetrics × Int × List Badges.Badge × List Nat)).foldl
          (fun st r => Badges.evaluateAllBadges r.1 r.2.1 r.2.2.1 r.2.2.2 st)
          [(1, 2, 0)]) 1 2 ≤ 1
    ∧ Badges.awardBadge 7 1 2 [(1, 2, 0)] = [(1, 2, 0)] :=
  userBadge_awarded_at_most_once [([], 0, [⟨5, "b", none⟩], [1])]
    [(1, 2, 0)] [(1, 2, 0)] 7 1 2 (by decide) (by decide)

end RR
